import Mathlib

/-!
Verification development for the Sentry Next.js wrapping loader
(packages/nextjs/src/config/loaders/wrappingLoader.ts) and the
server-side data-fetching wrapper (withSentryGetServerSideProps).

The loader receives a resource path, the user module code and its source
map, computes a parameterized route from the file location, may
short-circuit for excluded routes, selects one of three wrapper templates,
substitutes placeholders, and runs a virtual two-module link pass; on link
failure it falls back to the original code and map with one warning.
-/

/- ### Route classification (wrappingLoader.ts lines 50-62)

The source computes:
  path.relative(pagesDir, this.resourcePath)
    .replace(/(.*)/, '/$1')                                -- prefix a slash
    .replace(new RegExp(`\\.(pageExtensionRegex)`), '')    -- strip first extension match
    .replace(/\/index$/, '')                               -- drop a trailing /index segment
    .replace(/^$/, '/')                                    -- empty becomes the root route
We embed the extension regex as a list of literal alternatives (the
pattern built by the plugin is an alternation of page extensions), with
the JS leftmost-position, first-alternative match semantics. -/

/-- Length of the extension match at this position: a dot followed by one
of the alternatives, trying alternatives in order as JS alternation does. -/
def extMatchLen (l : List Char) (exts : List String) : Option Nat :=
  exts.findSome? fun e =>
    if ('.' :: e.data).isPrefixOf l then some (e.data.length + 1) else none

/-- Remove the leftmost occurrence of a dot followed by one of the
extension alternatives; the rest of the string is kept unchanged. This is
the non-global JS replace of the unanchored extension regex with the
empty string. -/
def stripExtChars : List Char → List String → List Char
  | [], _ => []
  | c :: rest, exts =>
    match extMatchLen (c :: rest) exts with
    | some n => (c :: rest).drop n
    | none => c :: stripExtChars rest exts

/-- The characters of the trailing index segment dropped by the loader. -/
def indexSuffix : List Char := ['/', 'i', 'n', 'd', 'e', 'x']

/-- The route computation of wrappingLoader.ts lines 50-62, applied to the
path of the resource relative to the pages directory: prefix a slash,
strip the first extension match, drop a trailing /index segment, and
substitute the root route for the empty string. -/
def parameterizedRoute (rel : String) (exts : List String) : String :=
  let s1 := '/' :: rel.data
  let s2 := stripExtChars s1 exts
  let s3 := if indexSuffix.isSuffixOf s2 then s2.take (s2.length - 6) else s2
  String.mk (if s3 = [] then ['/'] else s3)

/-- Characterwise model of Node path.relative for the supported case of a
resource path lying under the pages directory: consume the shared prefix
and the separator. (Resource paths handed to the loader live under the
pages directory.) -/
def relChars : List Char → List Char → List Char
  | [], '/' :: l => l
  | [], l => l
  | _ :: _, [] => []
  | r :: rs, c :: ls => if r = c then relChars rs ls else c :: ls

/-- Node path.relative, for resource paths under the root directory. -/
def pathRelative (root p : String) : String :=
  String.mk (relChars root.data p.data)

/-- The canonical route of a resource path: the route computation applied
to its path relative to the pages directory. -/
def canonicalRoute (root p : String) (exts : List String) : String :=
  parameterizedRoute (pathRelative root p) exts

/-- The default page extension alternation used by the Next.js config. -/
def defaultPageExtensions : List String := ["tsx", "ts", "jsx", "js"]

example : parameterizedRoute "index.ts" defaultPageExtensions = "/" := by decide
example : parameterizedRoute "blog/index.ts" defaultPageExtensions = "/blog" := by decide
example : parameterizedRoute "api/users.ts" defaultPageExtensions = "/api/users" := by decide

/- ### Exclusion matching and extension pattern compilation -/

/-- Modelled from the spec: an exclusion rule is an exact string or a
pattern (the matching utility lives in the sentry utils package, outside
this repository tree). -/
inductive MatchPattern where
  | str (s : String)
  | regex (test : String → Bool)

/-- Whether the second character list occurs contiguously in the first. -/
def hasInfix : List Char → List Char → Bool
  | [], needle => needle.isEmpty
  | c :: rest, needle => needle.isPrefixOf (c :: rest) || hasInfix rest needle

/-- Modelled from the spec: returns true iff the value matches any rule;
the loader passes requireExactStringMatch = true, so string rules match
by equality, and pattern rules by their own test. -/
def stringMatchesSomePattern (value : String) (patterns : List MatchPattern)
    (requireExactStringMatch : Bool) : Bool :=
  patterns.any fun p =>
    match p with
    | .str s => if requireExactStringMatch then value == s else hasInfix value.data s.data
    | .regex test => test value

/-- Parenthesis balance check over a pattern string. -/
def parensBalancedAux : Nat → List Char → Bool
  | n, [] => n == 0
  | n, '(' :: rest => parensBalancedAux (n + 1) rest
  | n, ')' :: rest =>
    match n with
    | 0 => false
    | m + 1 => parensBalancedAux m rest
  | n, _ :: rest => parensBalancedAux n rest

def parensBalanced (s : String) : Bool := parensBalancedAux 0 s.data

/-- Split a character list at every alternation bar. -/
def splitAltsChars : List Char → List (List Char)
  | [] => [[]]
  | '|' :: rest => [] :: splitAltsChars rest
  | c :: rest =>
    match splitAltsChars rest with
    | [] => [[c]]
    | h :: t => (c :: h) :: t

/-- The literal alternatives of an alternation pattern. -/
def splitAlternatives (p : String) : List String :=
  (splitAltsChars p.data).map String.mk

/-- Modelled from the spec: compiling the extension pattern with the JS
RegExp constructor, restricted to alternations of literal extensions.
Compilation throws on a malformed pattern; malformedness is modelled as
unbalanced parentheses, and a compiled pattern is its list of literal
alternatives. -/
def compileExtAlternatives (p : String) : Except String (List String) :=
  if parensBalanced p then Except.ok (splitAlternatives p)
  else Except.error ("Invalid regular expression: " ++ p)

/- ### Template selection and substitution (wrappingLoader.ts lines 70-86) -/

/-- A simple placeholder to make referencing the wrapper module
consistent (wrappingLoader.ts line 19). -/
def SENTRY_WRAPPER_MODULE_NAME : String := "sentry-wrapper-module"

/-- The synthetic name of the wrapping target module
(wrappingLoader.ts line 22). -/
def WRAPPING_TARGET_MODULE_NAME : String := "__SENTRY_WRAPPING_TARGET_FILE__.cjs"

/-- Drop the last path segment: the parent directory of a path. -/
def parentPath (d : String) : String :=
  String.mk ((((d.data.reverse).dropWhile fun c => c ≠ '/').drop 1).reverse)

/-- path.join(pagesDir, .., middleware.js) of wrappingLoader.ts line 70. -/
def middlewareJsPath (pagesDir : String) : String :=
  parentPath pagesDir ++ "/middleware.js"

/-- path.join(pagesDir, .., middleware.ts) of wrappingLoader.ts line 71. -/
def middlewareTsPath (pagesDir : String) : String :=
  parentPath pagesDir ++ "/middleware.ts"

/-- The three wrapper template roles. -/
inductive TemplateKind where
  | api
  | middleware
  | page
deriving DecidableEq

/-- String.startsWith, characterwise. -/
def startsWithChars (s pre : String) : Bool := pre.data.isPrefixOf s.data

/-- The template selection chain of wrappingLoader.ts lines 74-80: the
API-route check comes first, then the middleware file identity check,
else the page template. -/
def chooseTemplateKind (route resourcePath pagesDir : String) : TemplateKind :=
  if startsWithChars route "/api" then TemplateKind.api
  else if resourcePath == middlewareJsPath pagesDir
      || resourcePath == middlewareTsPath pagesDir then TemplateKind.middleware
  else TemplateKind.page

/-- Pick the template text for a selected role. -/
def templateFor (k : TemplateKind) (apiT midT pageT : String) : String :=
  match k with
  | .api => apiT
  | .middleware => midT
  | .page => pageT

/-- The backslash escaping applied to the route before substitution
(wrappingLoader.ts line 83). -/
def escapeBackslashes (s : String) : String := s.replace "\\" "\\\\"

/- ### The loader (wrappingLoader.ts lines 35-102) -/

/-- One invocation of the webpack callback: an error argument (always
null in this loader), the emitted code and the emitted source map. -/
structure CallbackCall (M : Type) where
  err : Option String
  code : String
  map : M
deriving DecidableEq

/-- Observable outcome of a loader run that did not itself throw: the
callback invocations it made and the console warnings it printed. -/
structure LoaderOutput (M : Type) where
  calls : List (CallbackCall M)
  warnings : List String
deriving DecidableEq

/-- The loader options (wrappingLoader.ts lines 24-28); the extension
pattern is carried as its raw string, compiled on every invocation. -/
structure LoaderOptions where
  pagesDir : String
  pageExtensionRegex : String
  excludeServerRoutes : List MatchPattern

/-- The console warning printed on a link failure
(wrappingLoader.ts lines 96-98). -/
def instrumentWarning (resourcePath err : String) : String :=
  "[@sentry/nextjs] Could not instrument " ++ resourcePath ++
    ". An error occurred while auto-wrapping:\n" ++ err

/-- The loader body (wrappingLoader.ts lines 35-102). The link pass is a
parameter taking the substituted wrapper code, the user code and its
source map, and returning the wrapped code and map or an error. Route
computation and template selection run outside any error handler, so an
exception there surfaces as an error of the whole run; the link pass runs
under a catch that warns once and falls back to the original code and
map. -/
def wrappingLoader {M : Type} (opts : LoaderOptions) (resourcePath : String)
    (apiT midT pageT : String)
    (link : String → String → M → Except String (String × M))
    (userCode : String) (userModuleSourceMap : M) :
    Except String (LoaderOutput M) :=
  match compileExtAlternatives opts.pageExtensionRegex with
  | Except.error e => Except.error e
  | Except.ok exts =>
    let route := canonicalRoute opts.pagesDir resourcePath exts
    if stringMatchesSomePattern route opts.excludeServerRoutes true then
      Except.ok ⟨[⟨none, userCode, userModuleSourceMap⟩], []⟩
    else
      let kind := chooseTemplateKind route resourcePath opts.pagesDir
      let t0 := templateFor kind apiT midT pageT
      let t1 := t0.replace "__ROUTE__" (escapeBackslashes route)
      let t2 := t1.replace "__SENTRY_WRAPPING_TARGET_FILE__" WRAPPING_TARGET_MODULE_NAME
      match link t2 userCode userModuleSourceMap with
      | Except.ok (wrappedCode, wrappedMap) =>
        Except.ok ⟨[⟨none, wrappedCode, wrappedMap⟩], []⟩
      | Except.error err =>
        Except.ok ⟨[⟨none, userCode, userModuleSourceMap⟩],
          [instrumentWarning resourcePath err]⟩

/- ### The virtual module link pass (wrappingLoader.ts lines 118-203)

wrapUserCode delegates the actual bundling to rollup, which is not part
of this repository tree; the pass is modelled here from the spec at the
level of module statement lists. The wrapper and the target are the only
internal modules (wrappingLoader.ts line 162 marks every other source id
as external); the wildcard re-export of the target is expanded into the
individually named exports of the target; external references pass
through with their source byte-identical (makeAbsoluteExternalsRelative
is false, wrappingLoader.ts line 187). -/

/-- A module statement, at the granularity the link pass distinguishes:
a wildcard re-export, a named re-export from a source, a static local
export declaration, or any other code. -/
inductive ModuleStmt where
  | exportStar (source : String)
  | exportFrom (names : List String) (source : String)
  | exportDecl (names : List String)
  | codeStmt (text : String)
deriving DecidableEq

/-- The names a statement exports. -/
def stmtNames : ModuleStmt → List String
  | .exportFrom ns _ => ns
  | .exportDecl ns => ns
  | _ => []

/-- The statically declared exports of a module. -/
def moduleExports (m : List ModuleStmt) : List String := m.flatMap stmtNames

/-- The external predicate of wrappingLoader.ts line 162: every source id
other than the wrapper module and the wrapping target is external. -/
def isExternal (id : String) : Bool :=
  id != SENTRY_WRAPPER_MODULE_NAME && id != WRAPPING_TARGET_MODULE_NAME

/-- Modelled from the spec: how the link pass inlines one target
statement into the bundle. Static local exports become individually
named exports; re-exports from external sources pass through with the
source unchanged; re-exports from internal sources become named local
exports of the inlined bindings. -/
def expandTargetStmt : ModuleStmt → List ModuleStmt
  | .exportDecl ns => [.exportDecl ns]
  | .exportFrom ns src =>
    if isExternal src then [.exportFrom ns src] else [.exportDecl ns]
  | .exportStar src => if isExternal src then [.exportStar src] else []
  | .codeStmt t => [.codeStmt t]

/-- Modelled from the spec: the inlined target module. -/
def expandTarget (target : List ModuleStmt) : List ModuleStmt :=
  target.flatMap expandTargetStmt

/-- Modelled from the spec: how the link pass treats one wrapper
statement. The wildcard re-export of the wrapping target is replaced by
the expanded target; re-exports from the wrapping target become named
local exports; everything else passes through. -/
def wrapStmt (target : List ModuleStmt) : ModuleStmt → List ModuleStmt
  | .exportStar src =>
    if src == WRAPPING_TARGET_MODULE_NAME then expandTarget target
    else [.exportStar src]
  | .exportFrom ns src =>
    if src == WRAPPING_TARGET_MODULE_NAME then [.exportDecl ns]
    else [.exportFrom ns src]
  | s => [s]

/-- Modelled from the spec: the single emitted module of the link pass of
wrapUserCode (wrappingLoader.ts lines 118-203). The rollup bundling run
by the source is not part of this repository tree; this model follows
the spec of the virtual module linker: entry is the wrapper, the target
is inlined, everything else stays external and untouched. -/
def wrapUserCode (wrapper target : List ModuleStmt) : List ModuleStmt :=
  wrapper.flatMap (wrapStmt target)

/- ### The data-fetching wrapper (withSentryGetServerSideProps) -/

/-- Modelled from the spec: callOriginal lives in wrapperUtils, outside
this repository tree; on the success path it performs bookkeeping and
returns the result of delegating to the original function unchanged. -/
def callOriginal {C R : Type} (f : C → R) (context : C) : R := f context

/-- The wrapped getServerSideProps (src/unnamed/part_000 lines 10-14):
a function of the same external shape that delegates to the original
through callOriginal. -/
def withSentryGetServerSideProps {C R : Type} (origGetServerSideProps : C → R) :
    C → R :=
  fun context => callOriginal origGetServerSideProps context

/- ### Helper lemmas -/

lemma relChars_self_append (r s : List Char) : relChars r (r ++ '/' :: s) = s := by
  induction r with
  | nil => rfl
  | cons c cs ih => simpa [relChars] using ih

lemma canonicalRoute_under (R tail : String) (exts : List String) :
    canonicalRoute R (R ++ "/" ++ tail) exts = parameterizedRoute tail exts := by
  unfold canonicalRoute pathRelative
  have h : (R ++ "/" ++ tail).data = R.data ++ '/' :: tail.data := by
    simp [String.data_append]
  rw [h, relChars_self_append]

lemma stripExtChars_subset {c : Char} :
    ∀ (s : List Char) (exts : List String), c ∈ stripExtChars s exts → c ∈ s := by
  intro s
  induction s with
  | nil => intro exts h; simp [stripExtChars] at h
  | cons a rest ih =>
    intro exts h
    rw [stripExtChars] at h
    cases hm : extMatchLen (a :: rest) exts with
    | some n =>
      rw [hm] at h
      exact List.drop_subset n (a :: rest) h
    | none =>
      rw [hm] at h
      rcases List.mem_cons.mp h with h | h
      · exact h ▸ List.mem_cons_self a rest
      · exact List.mem_cons_of_mem a (ih exts h)

/- ### Claims -/

/-- C4: for a file path under the root directory, the canonical route is
the relative path with a leading slash, the matched extension stripped,
a trailing index segment dropped, and the root route substituted for the
empty result; in particular R/index.ts maps to the root route,
R/blog/index.ts maps to /blog, and R/api/users.ts maps to /api/users. -/
theorem canonicalRoute_examples (R : String) :
    canonicalRoute R (R ++ "/" ++ "index.ts") defaultPageExtensions = "/" ∧
    canonicalRoute R (R ++ "/" ++ "blog/index.ts") defaultPageExtensions = "/blog" ∧
    canonicalRoute R (R ++ "/" ++ "api/users.ts") defaultPageExtensions = "/api/users" := by
  refine ⟨?_, ?_, ?_⟩ <;> rw [canonicalRoute_under] <;> decide

/-- C5 counterexample: the route computation does not normalize path
separators; on a host whose relative paths are backslash-separated, the
computed route for the relative path blog\index.ts still contains a
backslash (it is /blog\index: the extension is stripped, but the index
segment is not dropped because it is not preceded by a forward slash). -/
theorem route_backslash_counterexample :
    parameterizedRoute "blog\\index.ts" defaultPageExtensions = "/blog\\index" ∧
    '\\' ∈ (parameterizedRoute "blog\\index.ts" defaultPageExtensions).data := by
  constructor <;> decide

/-- C5 amended: the route computation performs no separator translation;
every character of the canonical route is either a slash (the prefixed
slash or the root route) or a character of the relative path, passed
through unchanged. On a backslash-separator host, backslashes of the
relative path therefore survive into the route. -/
theorem route_chars_from_input (rel : String) (exts : List String) (c : Char)
    (h : c ∈ (parameterizedRoute rel exts).data) : c = '/' ∨ c ∈ rel.data := by
  simp only [parameterizedRoute] at h
  have base : ∀ d : Char, d ∈ stripExtChars ('/' :: rel.data) exts →
      d = '/' ∨ d ∈ rel.data := by
    intro d hd
    rcases List.mem_cons.mp (stripExtChars_subset _ exts hd) with h | h
    · exact Or.inl h
    · exact Or.inr h
  split at h
  · split at h
    · exact Or.inl (List.mem_singleton.mp h)
    · exact base c (List.take_subset _ _ h)
  · split at h
    · exact Or.inl (List.mem_singleton.mp h)
    · exact base c h

/-- C5 amended, witness at the backslash-separated relative path. -/
theorem route_chars_from_input_witness :
    '\\' = '/' ∨ '\\' ∈ ("blog\\index.ts" : String).data :=
  route_chars_from_input "blog\\index.ts" defaultPageExtensions '\\' (by decide)

/-- C9: the wrapped getServerSideProps has the same external shape as
the original function and on the success path returns exactly the result
of delegating the context to the original, unchanged. -/
theorem withSentryGetServerSideProps_passthrough {C R : Type} (f : C → R) (c : C) :
    withSentryGetServerSideProps f c = f c := rfl

/-- C7: template selection is mutually exclusive and evaluated in fixed
priority order: an /api route selects the API template even when the
resource path equals one of the two middleware paths; otherwise a
middleware path selects the middleware template; otherwise the page
template is selected. -/
theorem template_selection_precedence (route resourcePath pagesDir : String) :
    (startsWithChars route "/api" = true →
      chooseTemplateKind route resourcePath pagesDir = TemplateKind.api) ∧
    (startsWithChars route "/api" = false →
      (resourcePath = middlewareJsPath pagesDir ∨
        resourcePath = middlewareTsPath pagesDir) →
      chooseTemplateKind route resourcePath pagesDir = TemplateKind.middleware) ∧
    (startsWithChars route "/api" = false →
      resourcePath ≠ middlewareJsPath pagesDir →
      resourcePath ≠ middlewareTsPath pagesDir →
      chooseTemplateKind route resourcePath pagesDir = TemplateKind.page) := by
  unfold chooseTemplateKind
  refine ⟨fun h => by simp [h], fun h hm => ?_, fun h h1 h2 => by simp [h, h1, h2]⟩
  rcases hm with hm | hm <;> simp [h, hm]

/-- C7 witness: a file whose canonical route starts with /api selects
the API template even though its path equals the middleware path. -/
theorem template_selection_precedence_witness :
    chooseTemplateKind "/api/users" "/root/middleware.ts" "/root/pages" =
      TemplateKind.api :=
  (template_selection_precedence "/api/users" "/root/middleware.ts" "/root/pages").1
    (by decide)

/-- C6: when the canonical route matches an exclusion rule, the loader
delivers the original code and source map with a null error and no
warning, independently of the templates and of the link pass, which are
never consulted. -/
theorem exclusion_short_circuit {M : Type} (opts : LoaderOptions)
    (resourcePath : String) (exts : List String) (apiT midT pageT : String)
    (link : String → String → M → Except String (String × M))
    (userCode : String) (userModuleSourceMap : M)
    (hc : compileExtAlternatives opts.pageExtensionRegex = Except.ok exts)
    (hm : stringMatchesSomePattern (canonicalRoute opts.pagesDir resourcePath exts)
        opts.excludeServerRoutes true = true) :
    wrappingLoader opts resourcePath apiT midT pageT link userCode userModuleSourceMap
      = Except.ok ⟨[⟨none, userCode, userModuleSourceMap⟩], []⟩ := by
  unfold wrappingLoader
  rw [hc]
  simp [hm]

/-- C6 witness: a route matching an exact exclusion rule short-circuits
to the original code and map. -/
theorem exclusion_short_circuit_witness :
    wrappingLoader ⟨"/root/pages", "tsx|ts|jsx|js", [MatchPattern.str "/blog"]⟩
        "/root/pages/blog/index.ts" "apiT" "midT" "pageT"
        (fun _ c (m : String) => Except.ok (c, m)) "userCode" "userMap"
      = Except.ok ⟨[⟨none, "userCode", "userMap"⟩], []⟩ :=
  exclusion_short_circuit ⟨"/root/pages", "tsx|ts|jsx|js", [MatchPattern.str "/blog"]⟩
    "/root/pages/blog/index.ts" ["tsx", "ts", "jsx", "js"] "apiT" "midT" "pageT"
    (fun _ c m => Except.ok (c, m)) "userCode" "userMap" rfl rfl

/-- C2: when the link pass rejects, the loader delivers exactly the
original code and the original map to the callback with a null error
(the error is not rethrown), after emitting the single warning that
names the failing file. -/
theorem link_failure_fallback {M : Type} (opts : LoaderOptions)
    (resourcePath : String) (exts : List String) (apiT midT pageT : String)
    (link : String → String → M → Except String (String × M)) (err : String)
    (userCode : String) (userModuleSourceMap : M)
    (hc : compileExtAlternatives opts.pageExtensionRegex = Except.ok exts)
    (hm : stringMatchesSomePattern (canonicalRoute opts.pagesDir resourcePath exts)
        opts.excludeServerRoutes true = false)
    (hl : ∀ w c m, link w c m = Except.error err) :
    wrappingLoader opts resourcePath apiT midT pageT link userCode userModuleSourceMap
      = Except.ok ⟨[⟨none, userCode, userModuleSourceMap⟩],
          [instrumentWarning resourcePath err]⟩ := by
  unfold wrappingLoader
  rw [hc]
  simp [hm, hl]

/-- C2 witness: a rejecting link pass yields the original code and map
plus one warning naming the file. -/
theorem link_failure_fallback_witness :
    wrappingLoader ⟨"/root/pages", "tsx|ts|jsx|js", []⟩
        "/root/pages/blog/index.ts" "apiT" "midT" "pageT"
        (fun _ _ (_ : String) => Except.error "parse error") "userCode" "userMap"
      = Except.ok ⟨[⟨none, "userCode", "userMap"⟩],
          [instrumentWarning "/root/pages/blog/index.ts" "parse error"]⟩ :=
  link_failure_fallback ⟨"/root/pages", "tsx|ts|jsx|js", []⟩
    "/root/pages/blog/index.ts" ["tsx", "ts", "jsx", "js"] "apiT" "midT" "pageT"
    (fun _ _ _ => Except.error "parse error") "parse error" "userCode" "userMap"
    rfl rfl (fun _ _ _ => rfl)

/-- C8 counterexample: an error raised while computing the route (a
malformed extension pattern) is not handled by the loader: the run ends
in an error, with no diagnostic emitted and no callback invocation, so
the original code and map are not delivered. The catch installed by the
loader only covers the link pass. -/
theorem classifier_error_counterexample :
    wrappingLoader ⟨"/root/pages", "(", []⟩ "/root/pages/index.ts"
        "apiT" "midT" "pageT" (fun _ c (m : String) => Except.ok (c, m))
        "userCode" "userMap"
      = Except.error "Invalid regular expression: (" := rfl

/-- C8 amended: errors of the link pass are recovered with one warning
and the original code and map (see the link failure fallback), but an
error raised while computing the route, such as a malformed extension
pattern, propagates out of the loader: no diagnostic is emitted and the
callback is never invoked. -/
theorem classifier_error_propagates {M : Type} (opts : LoaderOptions)
    (resourcePath : String) (apiT midT pageT : String)
    (link : String → String → M → Except String (String × M))
    (userCode : String) (userModuleSourceMap : M) (e : String)
    (hc : compileExtAlternatives opts.pageExtensionRegex = Except.error e) :
    wrappingLoader opts resourcePath apiT midT pageT link userCode userModuleSourceMap
      = Except.error e := by
  unfold wrappingLoader
  rw [hc]

/-- C8 amended, witness at the malformed pattern. -/
theorem classifier_error_propagates_witness :
    wrappingLoader ⟨"/root/pages", "(", []⟩ "/root/pages/index.ts"
        "apiT" "midT" "pageT" (fun _ _ (_ : String) => Except.error "unused")
        "userCode" "userMap"
      = Except.error "Invalid regular expression: (" :=
  classifier_error_propagates ⟨"/root/pages", "(", []⟩ "/root/pages/index.ts"
    "apiT" "midT" "pageT" (fun _ _ _ => Except.error "unused")
    "userCode" "userMap" "Invalid regular expression: (" rfl

/-- C10: whenever the loader returns without throwing, the callback was
invoked exactly once, and its error argument is null on every path. -/
theorem callback_exactly_once {M : Type} (opts : LoaderOptions)
    (resourcePath : String) (apiT midT pageT : String)
    (link : String → String → M → Except String (String × M))
    (userCode : String) (userModuleSourceMap : M) (out : LoaderOutput M)
    (h : wrappingLoader opts resourcePath apiT midT pageT link userCode
        userModuleSourceMap = Except.ok out) :
    out.calls.length = 1 ∧ ∀ call ∈ out.calls, call.err = none := by
  simp only [wrappingLoader] at h
  split at h
  · exact Except.noConfusion h
  · split at h
    · injection h with h
      subst h
      exact ⟨rfl, by simp⟩
    · split at h
      · injection h with h
        subst h
        exact ⟨rfl, by simp⟩
      · injection h with h
        subst h
        exact ⟨rfl, by simp⟩

/-- C10 witness: a concrete successful run made exactly one callback
invocation, with a null error argument. -/
theorem callback_exactly_once_witness :
    (⟨[⟨none, "userCode", "userMap"⟩], []⟩ : LoaderOutput String).calls.length = 1 :=
  (callback_exactly_once ⟨"/root/pages", "tsx|ts|jsx|js", [MatchPattern.str "/"]⟩
    "/root/pages/index.ts" "apiT" "midT" "pageT" (fun _ c m => Except.ok (c, m))
    "userCode" "userMap" ⟨[⟨none, "userCode", "userMap"⟩], []⟩ rfl).1

lemma mem_expandTarget_of_mem {t : ModuleStmt} {s : ModuleStmt}
    {target : List ModuleStmt} (hs : s ∈ target) (ht : t ∈ expandTargetStmt s) :
    t ∈ expandTarget target := by
  rw [expandTarget, List.mem_flatMap]
  exact ⟨s, hs, ht⟩

lemma mem_wrapUserCode_of_mem_expandTarget {t : ModuleStmt}
    {wrapper target : List ModuleStmt}
    (hstar : ModuleStmt.exportStar WRAPPING_TARGET_MODULE_NAME ∈ wrapper)
    (ht : t ∈ expandTarget target) : t ∈ wrapUserCode wrapper target := by
  rw [wrapUserCode, List.mem_flatMap]
  refine ⟨ModuleStmt.exportStar WRAPPING_TARGET_MODULE_NAME, hstar, ?_⟩
  simp only [wrapStmt, beq_self_eq_true, if_true]
  exact ht

/-- C1: when the wrapper re-exports everything from the wrapping target
(its only wildcard re-export) and the target declares its exports
statically, the single emitted module of the link pass contains every
export of the target as an individually named export, and no wildcard
re-export statement survives in the output. -/
theorem export_star_flattening (wrapper target : List ModuleStmt)
    (hstar : ModuleStmt.exportStar WRAPPING_TARGET_MODULE_NAME ∈ wrapper)
    (honly : ∀ src, ModuleStmt.exportStar src ∈ wrapper →
      src = WRAPPING_TARGET_MODULE_NAME)
    (hstatic : ∀ src, ModuleStmt.exportStar src ∉ target) :
    (∀ n, n ∈ moduleExports target → n ∈ moduleExports (wrapUserCode wrapper target)) ∧
    (∀ src, ModuleStmt.exportStar src ∉ wrapUserCode wrapper target) := by
  constructor
  · intro n hn
    rw [moduleExports, List.mem_flatMap] at hn
    obtain ⟨s, hs, hns⟩ := hn
    rw [moduleExports, List.mem_flatMap]
    cases s with
    | exportStar src => exact absurd hs (hstatic src)
    | exportFrom ns src =>
      cases hext : isExternal src with
      | true =>
        refine ⟨ModuleStmt.exportFrom ns src, ?_, hns⟩
        exact mem_wrapUserCode_of_mem_expandTarget hstar
          (mem_expandTarget_of_mem hs (by simp [expandTargetStmt, hext]))
      | false =>
        refine ⟨ModuleStmt.exportDecl ns, ?_, hns⟩
        exact mem_wrapUserCode_of_mem_expandTarget hstar
          (mem_expandTarget_of_mem hs (by simp [expandTargetStmt, hext]))
    | exportDecl ns =>
      refine ⟨ModuleStmt.exportDecl ns, ?_, hns⟩
      exact mem_wrapUserCode_of_mem_expandTarget hstar
        (mem_expandTarget_of_mem hs (by simp [expandTargetStmt]))
    | codeStmt t => simp [stmtNames] at hns
  · intro src hmem
    rw [wrapUserCode, List.mem_flatMap] at hmem
    obtain ⟨w, hw, hsw⟩ := hmem
    cases w with
    | exportStar src2 =>
      have h2 := honly src2 hw
      subst h2
      simp only [wrapStmt, beq_self_eq_true, if_true] at hsw
      rw [expandTarget, List.mem_flatMap] at hsw
      obtain ⟨t, ht, hst⟩ := hsw
      cases t with
      | exportStar src3 => exact hstatic src3 ht
      | exportFrom ns src3 =>
        cases hext : isExternal src3 <;> simp [expandTargetStmt, hext] at hst
      | exportDecl ns => simp [expandTargetStmt] at hst
      | codeStmt t2 => simp [expandTargetStmt] at hst
    | exportFrom ns src2 =>
      cases h2 : (src2 == WRAPPING_TARGET_MODULE_NAME) <;>
        simp [wrapStmt, h2] at hsw
    | exportDecl ns => simp [wrapStmt] at hsw
    | codeStmt t2 => simp [wrapStmt] at hsw

/-- C1 witness: a target statically exporting a and b yields a and b as
named exports of the emitted module. -/
theorem export_star_flattening_witness :
    "a" ∈ moduleExports (wrapUserCode
      [ModuleStmt.codeStmt "import wrappers",
        ModuleStmt.exportStar WRAPPING_TARGET_MODULE_NAME]
      [ModuleStmt.exportDecl ["a"], ModuleStmt.exportDecl ["b"]]) :=
  (export_star_flattening
    [ModuleStmt.codeStmt "import wrappers",
      ModuleStmt.exportStar WRAPPING_TARGET_MODULE_NAME]
    [ModuleStmt.exportDecl ["a"], ModuleStmt.exportDecl ["b"]]
    (by decide)
    (by intro src h; simp at h; exact h)
    (by intro src h; simp at h)).1 "a" (by decide)

/-- C3: a module reference of the user code other than the two synthetic
module names is treated as external by the link pass, and the emitted
module carries its path byte-identical to how it appears in the user
code. -/
theorem external_path_preserved (wrapper target : List ModuleStmt)
    (ns : List String) (src : String)
    (h1 : src ≠ SENTRY_WRAPPER_MODULE_NAME)
    (h2 : src ≠ WRAPPING_TARGET_MODULE_NAME)
    (hstar : ModuleStmt.exportStar WRAPPING_TARGET_MODULE_NAME ∈ wrapper)
    (hmem : ModuleStmt.exportFrom ns src ∈ target) :
    isExternal src = true ∧
    ModuleStmt.exportFrom ns src ∈ wrapUserCode wrapper target := by
  have hext : isExternal src = true := by
    simp [isExternal]
    exact ⟨h1, h2⟩
  refine ⟨hext, ?_⟩
  exact mem_wrapUserCode_of_mem_expandTarget hstar
    (mem_expandTarget_of_mem hmem (by simp [expandTargetStmt, hext]))

/-- C3 witness: a relative re-export path two levels up is emitted
unchanged, no matter the depth of the wrapped page. -/
theorem external_path_preserved_witness :
    ModuleStmt.exportFrom ["helper"] "../../utils/helper" ∈
      wrapUserCode [ModuleStmt.exportStar WRAPPING_TARGET_MODULE_NAME]
        [ModuleStmt.exportFrom ["helper"] "../../utils/helper"] :=
  (external_path_preserved [ModuleStmt.exportStar WRAPPING_TARGET_MODULE_NAME]
    [ModuleStmt.exportFrom ["helper"] "../../utils/helper"]
    ["helper"] "../../utils/helper" (by decide) (by decide) (by decide)
    (by decide)).2
